import Mathlib

/-!
Verification of the gnarmap SNODAS pipeline (packages/pipeline).

This file is a shallow embedding, in Lean 4, of the parts of the Rust
source that the verified properties talk about:

* src/snodas.rs        - product registry and the SNODAS payload filename
                         decoder (SnodasFile::parse_filename);
* src/zarr_builder.rs  - the Zarr accumulation engine
                         (ZarrBuilder::process_cogs and
                         ZarrBuilder::process_single_cog);
* src/main.rs          - the remote-append helper get_affected_time_chunks.

Modelling conventions:

* Rust i16 pixel values are modelled as Int (no arithmetic is performed on
  them, so overflow is not an issue).
* Rust strings are ASCII here, and Rust str operations are modelled on
  character lists (byte index = character index for ASCII input).
* The Zarr filesystem store is modelled as a record of: a partial map from
  chunk indices (time_chunk, chunk_y, chunk_x) to decoded chunk buffers
  (flat row-major functions from position to value), the array metadata
  (its shape), the group metadata flag, and the persisted dates.json.
  zarrs semantics: retrieving a missing chunk yields the fill value 0;
  storing metadata never touches chunk objects.
* Fallible chunk stores (zarrs store_chunk_elements) are modelled by a
  put_ok predicate saying which physical chunk writes succeed; a failed
  write leaves the chunk unmodified and aborts the current COG, exactly
  as the ? operator in process_single_cog does.
* The rayon par_iter loop over the files of one time-chunk group is
  modelled in two ways: the sequential linearization in ascending index
  order (the order the groups and the sorted file list produce) for the
  state-transformer embedding, and a small interleaving machine for the
  unsynchronized retrieve/store pair of process_single_cog, used to
  analyse the concurrency claim.
* Vec::sort (a stable comparison sort) is modelled by insertion sort,
  which is stable and produces the same (unique) output as any stable
  sort.
-/

/-! ## ASCII string helpers (Rust str operations on character lists) -/

/-- Lexicographic less-or-equal on character lists: the order Rust uses to
sort byte strings (byte order = character order for ASCII). -/
def chars_le : List Char → List Char → Bool
  | [], _ => true
  | _ :: _, [] => false
  | a :: as, b :: bs => if a = b then chars_le as bs else decide (a < b)

/-- Rust String comparison (String::cmp), restricted to less-or-equal. -/
def str_le (a b : String) : Bool := chars_le a.toList b.toList

/-- str_le as a relation (used to express sortedness of date axes). -/
def str_rle (a b : String) : Prop := str_le a b = true

instance : DecidableRel str_rle := fun a b => inferInstanceAs (Decidable (str_le a b = true))

/-- Strictly-below in the string order (used by the spec-side position
function of the affected-chunk analysis). -/
def str_slt (a b : String) : Prop := str_le a b = true ∧ a ≠ b

instance : DecidableRel str_slt := fun a b =>
  inferInstanceAs (Decidable (str_le a b = true ∧ a ≠ b))

/-- Rust str::split on a single separator character. -/
def split_on_char (sep : Char) : List Char → List (List Char)
  | [] => [[]]
  | c :: cs =>
    match split_on_char sep cs with
    | [] => [[]]
    | acc :: rest => if c = sep then [] :: acc :: rest else (c :: acc) :: rest

/-- Rust str::find of a pattern: index of the first occurrence. -/
def find_sub (cs pat : List Char) : Option Nat :=
  (List.range (cs.length + 1)).find? (fun i => pat.isPrefixOf (cs.drop i))

/-- Rust str::contains. -/
def str_contains_chars (cs pat : List Char) : Bool := (find_sub cs pat).isSome

/-- Rust str::trim_end_matches (repeatedly strips the pattern), with an
explicit fuel argument bounding the number of strips. -/
def trim_end_matches_aux (pat : List Char) : Nat → List Char → List Char
  | 0, s => s
  | n + 1, s =>
    if pat ≠ [] ∧ pat.isSuffixOf s then
      trim_end_matches_aux pat n (s.take (s.length - pat.length))
    else s

/-- Rust str::trim_end_matches. -/
def trim_end_matches_chars (s pat : List Char) : List Char :=
  trim_end_matches_aux pat s.length s

/-! ## src/snodas.rs: constants, products, payload filename decoder -/

/-- snodas.rs: NODATA_VALUE. -/
def NODATA_VALUE : Int := -9999

/-- snodas.rs: MASKED_COLS (raster width). -/
def MASKED_COLS : Nat := 6935

/-- snodas.rs: MASKED_ROWS (raster height). -/
def MASKED_ROWS : Nat := 3351

/-- snodas.rs: enum ProductId. -/
inductive ProductId where
  | Swe
  | SnowDepth
  | SnowMeltRunoff
  | Sublimation
  | SublimationBlowing
  | Precipitation
  | SnowpackAverageTemp
deriving DecidableEq, Repr

/-- snodas.rs: ProductId::from_code. -/
def ProductId.from_code (code : Nat) : Option ProductId :=
  match code with
  | 1034 => some .Swe
  | 1036 => some .SnowDepth
  | 1044 => some .SnowMeltRunoff
  | 1050 => some .Sublimation
  | 1039 => some .SublimationBlowing
  | 1025 => some .Precipitation
  | 1038 => some .SnowpackAverageTemp
  | _ => none

/-- Rust str::parse on an unsigned integer: succeeds exactly on a nonempty
all-digit string (the slices parsed here never carry signs). -/
def parse_nat_digits (cs : List Char) : Option Nat :=
  if cs ≠ [] ∧ cs.all (fun c => c.isDigit) then
    some (cs.foldl (fun a c => a * 10 + (c.toNat - 48)) 0)
  else none

/-- Gregorian leap year, as chrono uses. -/
def is_leap_year (y : Nat) : Bool :=
  (y % 4 == 0 && y % 100 != 0) || y % 400 == 0

/-- Days in a month of the proleptic Gregorian calendar. -/
def days_in_month (y m : Nat) : Nat :=
  if m = 2 then (if is_leap_year y then 29 else 28)
  else if m = 4 ∨ m = 6 ∨ m = 9 ∨ m = 11 then 30
  else 31

/-- chrono NaiveDate::from_ymd_opt validity check (for the nonnegative
years appearing in SNODAS filenames). -/
def from_ymd_valid (y m d : Nat) : Bool :=
  decide (1 ≤ m ∧ m ≤ 12 ∧ 1 ≤ d ∧ d ≤ days_in_month y m)

/-- snodas.rs: struct SnodasFile (the date as a (year, month, day) triple). -/
structure SnodasFile where
  date : Nat × Nat × Nat
  product_id : ProductId
  filename : String
  is_model : Bool
  hour : Nat
deriving DecidableEq, Repr

/-- snodas.rs lines 138-195: SnodasFile::parse_filename. -/
def SnodasFile.parse_filename (filename : String) : Option SnodasFile :=
  let fl := filename.toList
  if ¬ (".dat".toList.isSuffixOf fl ∨ ".dat.gz".toList.isSuffixOf fl) then none
  else
    let base := trim_end_matches_chars (trim_end_matches_chars fl ".gz".toList) ".dat".toList
    let parts := split_on_char '_' base
    if parts.length < 4 then none
    else if parts.getD 0 [] ≠ "us".toList then none
    else
      let product_part := parts.getD 1 []
      let code_str := (product_part.dropWhile (fun c => ¬ c.isDigit)).takeWhile (fun c => c.isDigit)
      match parse_nat_digits code_str with
      | none => none
      | some full_code =>
        match ProductId.from_code (full_code % 10000) with
        | none => none
        | some pid =>
          let is_model := str_contains_chars product_part "Sl".toList
          match find_sub base "TTNATS".toList with
          | none => none
          | some ttnats_pos =>
            let date_start := ttnats_pos + 6
            if base.length < date_start + 10 then none
            else
              let dp := (base.drop date_start).take 10
              match parse_nat_digits (dp.take 4), parse_nat_digits ((dp.drop 4).take 2),
                    parse_nat_digits ((dp.drop 6).take 2), parse_nat_digits ((dp.drop 8).take 2) with
              | some y, some m, some d, some h =>
                if from_ymd_valid y m d then
                  some { date := (y, m, d), product_id := pid, filename := filename,
                         is_model := is_model, hour := h }
                else none
              | _, _, _, _ => none

/-! ## src/zarr_builder.rs: the Zarr accumulation engine -/

/-- A decoded chunk store: partial map from (time_chunk, chunk_y, chunk_x)
to the decoded flat row-major buffer of 365*256*256 int16 elements. -/
abbrev Chunks := Nat × Nat × Nat → Option (Nat → Int)

/-- A COG as the GDAL band adapter presents it: raster size and the pixel
values, pix row col (int16, NODATA_VALUE outside the snow mask). -/
structure Cog where
  width : Nat
  height : Nat
  pix : Nat → Nat → Int

/-- zarr_builder.rs line 285: read_height = min(CHUNK_Y, height - start_y). -/
def read_height (h cy : Nat) : Nat := min 256 (h - cy * 256)

/-- zarr_builder.rs line 286: read_width = min(CHUNK_X, width - start_x). -/
def read_width (w cx : Nat) : Nat := min 256 (w - cx * 256)

/-- zarr_builder.rs lines 297-301: NODATA pixels are normalized to 0. -/
def normalize_px (v : Int) : Int := if v = NODATA_VALUE then 0 else v

/-- zarr_builder.rs line 303: has_data = any normalized pixel of the
window read at (chunk_y*256, chunk_x*256) is strictly positive. -/
def window_has_data (c : Cog) (cy cx : Nat) : Bool :=
  (List.range (read_height c.height cy)).any fun row =>
    (List.range (read_width c.width cx)).any fun col =>
      decide (0 < normalize_px (c.pix (cy * 256 + row) (cx * 256 + col)))

/-- zarr_builder.rs lines 311-317: the staged in-memory buffer of
365*256*256 zeros with the normalized window copied into the
time_offset = time_idx % 365 slab at destination offset
time_offset*65536 + row*256, written as a function of the flat position
(position i sits at time slab i / 65536, row (i % 65536) / 256,
column (i % 65536) % 256). -/
def staged_chunk (c : Cog) (time_idx cy cx : Nat) : Nat → Int :=
  fun i =>
    if i / 65536 = time_idx % 365 ∧ (i % 65536) / 256 < read_height c.height cy ∧
        (i % 65536) % 256 < read_width c.width cx then
      normalize_px (c.pix (cy * 256 + (i % 65536) / 256) (cx * 256 + (i % 65536) % 256))
    else 0

/-- zarrs retrieve semantics: a missing chunk decodes to the fill value 0. -/
def retrieve_buf (b : Option (Nat → Int)) : Nat → Int := b.getD (fun _ => 0)

/-- zarr_builder.rs line 321: array.retrieve_chunk_elements. -/
def retrieve_chunk (chunks : Chunks) (key : Nat × Nat × Nat) : Nat → Int :=
  retrieve_buf (chunks key)

/-- zarr_builder.rs lines 321-327: at every position whose staged value is
0, adopt the existing value; elsewhere the staged value stays. -/
def merge_chunk (staged existing : Nat → Int) : Nat → Int :=
  fun i => if staged i = 0 then existing i else staged i

/-- zarr_builder.rs line 329: array.store_chunk_elements. -/
def store_put (chunks : Chunks) (key : Nat × Nat × Nat) (buf : Nat → Int) : Chunks :=
  fun k => if k = key then some buf else chunks k

/-- zarr_builder.rs lines 277-281: the (chunk_y, chunk_x) iteration grid,
chunk_y outer, chunk_x inner. -/
def chunk_pairs (h w : Nat) : List (Nat × Nat) :=
  (List.range ((h + 255) / 256)).flatMap fun cy =>
    (List.range ((w + 255) / 256)).map fun cx => (cy, cx)

/-- zarr_builder.rs lines 280-332: the chunk loop of process_single_cog.
put_ok says which physical chunk writes succeed; a failed
store_chunk_elements returns Err from process_single_cog at once (the ?
operator), leaving the chunk it failed on unwritten; none marks that
error outcome. The returned Nat is nonzero_chunks. -/
def process_cog_chunks (put_ok : Nat × Nat × Nat → Bool) (c : Cog) (time_idx : Nat) :
    List (Nat × Nat) → Chunks → Nat → Chunks × Option Nat
  | [], chunks, n => (chunks, some n)
  | p :: rest, chunks, n =>
    if window_has_data c p.1 p.2 then
      let key := (time_idx / 365, p.1, p.2)
      let merged := merge_chunk (staged_chunk c time_idx p.1 p.2) (retrieve_chunk chunks key)
      if put_ok key then
        process_cog_chunks put_ok c time_idx rest (store_put chunks key merged) (n + 1)
      else (chunks, none)
    else process_cog_chunks put_ok c time_idx rest chunks n

/-- zarr_builder.rs lines 264-335: ZarrBuilder::process_single_cog. -/
def process_single_cog (put_ok : Nat × Nat × Nat → Bool) (chunks : Chunks) (c : Cog)
    (time_idx : Nat) : Chunks × Option Nat :=
  process_cog_chunks put_ok c time_idx (chunk_pairs c.height c.width) chunks 0

/-- The filesystem store under the output path: chunk objects, the
snow_depth array metadata (shape), the root group metadata, dates.json. -/
structure FsStore where
  chunks : Chunks
  array_shape : Option (Nat × Nat × Nat)
  group_meta : Bool
  dates_json : Option (List String)

/-- zarr_builder.rs: struct ZarrBuilder (store plus in-memory dates). -/
structure ZarrBuilder where
  store : FsStore
  dates : List String

/-- zarr_builder.rs lines 29-44: ZarrBuilder::new. It writes the root
group metadata and starts with an empty date axis; chunk objects already
under the output path are untouched. -/
def ZarrBuilder.new_builder (fs : FsStore) : ZarrBuilder :=
  { store := { fs with group_meta := true }, dates := [] }

/-- zarr_builder.rs lines 46-66: ZarrBuilder::load_existing (dates.json
absent means an empty axis). -/
def ZarrBuilder.load_existing (fs : FsStore) : ZarrBuilder :=
  { store := fs, dates := fs.dates_json.getD [] }

/-- zarr_builder.rs lines 79-107: ZarrBuilder::create_array. It (re)writes
the snow_depth array metadata with shape (num_dates, 3351, 6935); chunk
objects are not touched (zarrs store_metadata only writes zarr.json). -/
def ZarrBuilder.create_array (fs : FsStore) (num_dates : Nat) : FsStore :=
  { fs with array_shape := some (num_dates, MASKED_ROWS, MASKED_COLS) }

/-- Modelled from the spec: extract_date_from_cog_filename is called by
zarr_builder.rs, main.rs and timeseries.rs but its definition is missing
from the provided sources (snodas.rs as given does not contain it).
Spec 4.B parse_cog: the strict form snodas_<name>_YYYYMMDD.tif is the
only accepted one; the YYYYMMDD digits are returned. -/
def extract_date_from_cog_filename (name : String) : Option String :=
  let cs := name.toList
  if "snodas_".toList.isPrefixOf cs ∧ ".tif".toList.isSuffixOf cs then
    let stem := (cs.drop 7).take ((cs.drop 7).length - 4)
    if 10 ≤ stem.length ∧ stem.getD (stem.length - 9) ' ' = '_' ∧
        ((stem.drop (stem.length - 8)).all fun c => c.isDigit) then
      some (String.mk (stem.drop (stem.length - 8)))
    else none
  else none

/-- Rust Vec::sort on strings (stable; modelled by stable insertion sort). -/
def sort_strings (l : List String) : List String :=
  l.insertionSort str_rle

/-- BTreeSet of strings: its ascending, duplicate-free iteration order. -/
def btree_set_strings (l : List String) : List String := (sort_strings l).dedup

/-- Errors process_cogs propagates in this model: Array::open failing
because the snow_depth metadata is absent. -/
inductive ZarrError where
  | openArrayFailed
deriving DecidableEq, Repr

/-- zarr_builder.rs lines 114-124: the .tif / snow_depth directory filter
(the extension == tif test is modelled as the .tif suffix). -/
def zb_cog_files (cog_dir : List (String × Cog)) : List (String × Cog) :=
  cog_dir.filter fun f =>
    ".tif".toList.isSuffixOf f.1.toList && str_contains_chars f.1.toList "snow_depth".toList

/-- zarr_builder.rs lines 126-133: the BTreeSet of all candidate dates. -/
def zb_all_dates (cog_dir : List (String × Cog)) : List String :=
  btree_set_strings ((zb_cog_files cog_dir).filterMap fun f => extract_date_from_cog_filename f.1)

/-- zarr_builder.rs lines 135-140: new_dates (BTreeSet difference against
self.dates in append mode; every candidate date otherwise). -/
def zb_new_dates (b : ZarrBuilder) (cog_dir : List (String × Cog)) (append : Bool) : List String :=
  if append then (zb_all_dates cog_dir).filter (fun d => !(b.dates.contains d))
  else zb_all_dates cog_dir

/-- zarr_builder.rs lines 157-165: combined_dates, the sorted union. -/
def zb_combined (b : ZarrBuilder) (cog_dir : List (String × Cog)) (append : Bool) : List String :=
  sort_strings (if append then b.dates ++ zb_new_dates b cog_dir append
                else zb_new_dates b cog_dir append)

/-- zarr_builder.rs lines 167-182: create the array fresh (non-append or
empty axis), or open it and grow the time dimension if needed; opening
fails (None) when the snow_depth metadata is absent. -/
def zb_alloc (b : ZarrBuilder) (append : Bool) (len : Nat) : Option FsStore :=
  if !append || b.dates.isEmpty then some (ZarrBuilder.create_array b.store len)
  else
    match b.store.array_shape with
    | none => none
    | some shp =>
      some { b.store with
             array_shape := some (if shp.1 < len then (len, shp.2.1, shp.2.2) else shp) }

/-- zarr_builder.rs lines 184-205: match each filtered file to its index
in combined_dates (keeping only new dates), sorted ascending by index.
The date string itself is dropped here: the source keeps it only for the
warn log line. The date_to_index HashMap of lines 184-188 maps a date to
its last enumerated index; combined_dates holds no duplicates in any
state reachable through process_cogs (the axis invariant), so last =
first and indexOf? is that lookup. -/
def zb_sorted_files (b : ZarrBuilder) (cog_dir : List (String × Cog)) (append : Bool) :
    List (Cog × Nat) :=
  ((zb_cog_files cog_dir).filterMap fun f =>
    match extract_date_from_cog_filename f.1 with
    | none => none
    | some date =>
      if date ∈ zb_new_dates b cog_dir append then
        ((zb_combined b cog_dir append).indexOf? date).map (fun idx => (f.2, idx))
      else none).insertionSort fun a b => a.2 ≤ b.2

/-- zarr_builder.rs lines 207-247: the grouped rayon loop, modelled by its
sequential linearization in ascending index order (the BTreeMap groups
ascend, and within a group the files keep the sorted order; a per-file
error is logged and skipped). Accumulates (chunks, success_count,
total_nonzero). -/
def zb_step (put_ok : Nat × Nat × Nat → Bool) (acc : Chunks × Nat × Nat) (f : Cog × Nat) :
    Chunks × Nat × Nat :=
  match process_single_cog put_ok acc.1 f.1 f.2 with
  | (chunks2, some cnt) => (chunks2, acc.2.1 + 1, acc.2.2 + cnt)
  | (chunks2, none) => (chunks2, acc.2.1, acc.2.2)

/-- zarr_builder.rs lines 230-247: the whole grouped loop as a fold of
zb_step from (chunks, 0, 0). -/
def zb_run (put_ok : Nat × Nat × Nat → Bool) (chunks : Chunks) (files : List (Cog × Nat)) :
    Chunks × Nat × Nat :=
  files.foldl (zb_step put_ok) (chunks, 0, 0)

/-- zarr_builder.rs lines 113-262: ZarrBuilder::process_cogs. The cog_dir
argument lists the directory entries (filename, decoded COG). Empty
new_dates returns 0 early (line 142); otherwise the array is allocated,
the files run, and finally self.dates becomes combined_dates and
dates.json is saved (lines 253-254). The returned Nat is success_count. -/
def process_cogs (put_ok : Nat × Nat × Nat → Bool) (b : ZarrBuilder)
    (cog_dir : List (String × Cog)) (append : Bool) : Except ZarrError (ZarrBuilder × Nat) :=
  if (zb_new_dates b cog_dir append).isEmpty then Except.ok (b, 0)
  else
    match zb_alloc b append (zb_combined b cog_dir append).length with
    | none => Except.error ZarrError.openArrayFailed
    | some fs =>
      let combined := zb_combined b cog_dir append
      let run := zb_run put_ok fs.chunks (zb_sorted_files b cog_dir append)
      Except.ok (⟨{ fs with chunks := run.1, dates_json := some combined }, combined⟩, run.2.1)

/-- The logical array cell (t, y, x): decoded from chunk
(t/365, y/256, x/256) at flat position (t%365)*65536 + (y%256)*256 + x%256,
fill value 0 where no chunk object exists. -/
def array_get (chunks : Chunks) (t y x : Nat) : Int :=
  retrieve_chunk chunks (t / 365, y / 256, x / 256) ((t % 365) * 65536 + (y % 256) * 256 + x % 256)

/-- The builder a process_cogs result leaves behind (the pre-call builder
if the call failed before touching anything). -/
def result_builder (r : Except ZarrError (ZarrBuilder × Nat)) (dflt : ZarrBuilder) : ZarrBuilder :=
  match r with
  | .ok p => p.1
  | .error _ => dflt

/-! ## src/main.rs: the remote append helper -/

/-- Rust Vec::sort on naturals (stable; modelled by insertion sort). -/
def sort_nats (l : List Nat) : List Nat := l.insertionSort (· ≤ ·)

/-- main.rs lines 475-492: get_affected_time_chunks. The existing dates
and the new dates are concatenated and sorted; each new date contributes
its first position in that sorted vector, divided by 365; the BTreeSet
iteration yields the ascending duplicate-free list. -/
def get_affected_time_chunks (existing_dates new_dates : List String) : List Nat :=
  (sort_nats (new_dates.filterMap fun d =>
    ((sort_strings (existing_dates ++ new_dates)).indexOf? d).map (fun idx => idx / 365))).dedup

/-! ## The unsynchronized retrieve/store pair under rayon

zarr_builder.rs lines 233-246 run process_single_cog for the files of one
time-chunk group on a rayon pool; lines 321-329 then perform
retrieve_chunk_elements followed by store_chunk_elements on the shared
array with no lock in between. For two tasks of the same group that
target the same spatial chunk this is a classic read-modify-write pair;
the machine below models one shared chunk object and the two atomic
events (the retrieve, then the merged store) each task performs on it. -/

/-- One task of the rayon loop, about to run lines 321-329 on a chunk it
shares with another task: its staged buffer, its program counter (0 =
before the retrieve, 1 = retrieve done, 2 = store done) and the existing
elements its retrieve returned. -/
structure RmwTask where
  staged : Nat → Int
  pc : Nat
  loc : Nat → Int

/-- One atomic event of a task: pc 0 performs the retrieve (line 321),
pc 1 computes the merge (lines 322-327) and performs the store (line 329). -/
def rmw_step (chunk : Option (Nat → Int)) (tk : RmwTask) : Option (Nat → Int) × RmwTask :=
  if tk.pc = 0 then (chunk, { tk with pc := 1, loc := retrieve_buf chunk })
  else if tk.pc = 1 then (some (merge_chunk tk.staged tk.loc), { tk with pc := 2 })
  else (chunk, tk)

/-- Run an interleaving: true schedules task 1, false schedules task 2. -/
def rmw_run (sched : List Bool) (st : Option (Nat → Int) × RmwTask × RmwTask) :
    Option (Nat → Int) × RmwTask × RmwTask :=
  sched.foldl (fun s who =>
    if who then
      let r := rmw_step s.1 s.2.1
      (r.1, r.2, s.2.2)
    else
      let r := rmw_step s.1 s.2.2
      (r.1, s.2.1, r.2)) st

/-- A task that has not started yet. -/
def rmw_task_init (staged : Nat → Int) : RmwTask := ⟨staged, 0, fun _ => 0⟩

/-! ## Spec-side definitions and concrete fixtures -/

/-- Spec 4.G step 4: the final position p(d) of a date inside the sorted
union of the existing and the new dates - the number of members of the
union that sort strictly below d (E and N are disjoint and duplicate-free
when this is used, so the count over the concatenation is that position). -/
def position_in_sorted_union (existing new : List String) (d : String) : Nat :=
  ((existing ++ new).filter fun e => decide (str_slt e d)).length

/-- A full-size COG that is NODATA everywhere except one pixel. -/
def single_pixel_cog (y0 x0 : Nat) (v : Int) : Cog :=
  { width := MASKED_COLS, height := MASKED_ROWS,
    pix := fun r c => if r = y0 ∧ c = x0 then v else NODATA_VALUE }

/-- A tiny 1x1 COG holding one pixel value (GDAL reports its raster size,
so the chunk loop runs over the single pair (0, 0)). -/
def tiny_cog (v : Int) : Cog := { width := 1, height := 1, pix := fun _ _ => v }

/-- Fixture: a store holding exactly the date 20231201 at axis position 0,
with its array metadata present and dates.json in sync. -/
def b_dec01 : ZarrBuilder :=
  { store := { chunks := fun _ => none, array_shape := some (1, MASKED_ROWS, MASKED_COLS),
               group_meta := true, dates_json := some ["20231201"] },
    dates := ["20231201"] }

/-- Fixture: a directory with one snow-depth COG dated 2023-11-30. -/
def dir_nov30 : List (String × Cog) := [("snodas_snow_depth_20231130.tif", tiny_cog 5)]

/-- Fixture: a directory with one snow-depth COG dated 2023-12-01. -/
def dir_dec01 : List (String × Cog) := [("snodas_snow_depth_20231201.tif", tiny_cog 5)]

/-- Fixture: a directory with one snow-depth COG dated 2023-12-02. -/
def dir_dec02 : List (String × Cog) := [("snodas_snow_depth_20231202.tif", tiny_cog 7)]

/-- Fixture: a completely fresh builder over an empty output directory. -/
def b_empty : ZarrBuilder :=
  { store := { chunks := fun _ => none, array_shape := none, group_meta := true,
               dates_json := none },
    dates := [] }

/-- Fixture: a store holding exactly the date 20231202 at axis position 0
whose chunk (0,0,0) carries the value 9 at time offset 0, row 0, col 0. -/
def b_dec02 : ZarrBuilder :=
  { store := { chunks := fun k => if k = (0, 0, 0) then some (fun i => if i = 0 then 9 else 0)
                                  else none,
               array_shape := some (1, MASKED_ROWS, MASKED_COLS),
               group_meta := true, dates_json := some ["20231202"] },
    dates := ["20231202"] }

/-- Fixture: a chunk store holding one chunk at (0,0,0), constant 3. -/
def chunks_c3 : Chunks := fun k => if k = (0, 0, 0) then some (fun _ => 3) else none

/-- Fixture: an output directory carrying a leftover chunk at (0,0,0),
constant 7, from an earlier run - and nothing else. -/
def fs_leftover : FsStore :=
  { chunks := fun k => if k = (0, 0, 0) then some (fun _ => 7) else none,
    array_shape := none, group_meta := false, dates_json := none }

/-! ## Order lemmas for the string comparison -/

theorem chars_le_refl : ∀ as, chars_le as as = true := by
  intro as
  induction as with
  | nil => rfl
  | cons a as ih => simp [chars_le, ih]

theorem chars_le_total : ∀ as bs, chars_le as bs = true ∨ chars_le bs as = true := by
  intro as
  induction as with
  | nil => intro bs; left; rfl
  | cons a as ih =>
    intro bs
    cases bs with
    | nil => right; rfl
    | cons b bs =>
      by_cases hab : a = b
      · subst hab
        simpa [chars_le] using ih bs
      · rcases Ne.lt_or_lt hab with h | h
        · left; simp [chars_le, hab, h]
        · right; simp [chars_le, Ne.symm hab, h]

theorem chars_le_trans :
    ∀ as bs cs, chars_le as bs = true → chars_le bs cs = true → chars_le as cs = true := by
  intro as
  induction as with
  | nil => intro bs cs h1 h2; rfl
  | cons a as ih =>
    intro bs cs h1 h2
    cases bs with
    | nil => simp [chars_le] at h1
    | cons b bs =>
      cases cs with
      | nil => simp [chars_le] at h2
      | cons c cs =>
        simp only [chars_le] at h1 h2 ⊢
        by_cases hab : a = b
        · subst hab
          by_cases hbc : a = c
          · subst hbc
            simp only [if_pos rfl] at h1 h2 ⊢
            exact ih bs cs h1 h2
          · simp only [if_pos rfl] at h1
            simp only [if_neg hbc] at h2 ⊢
            exact h2
        · by_cases hbc : b = c
          · subst hbc
            simp only [if_neg hab] at h1 ⊢
            exact h1
          · simp only [if_neg hab] at h1
            simp only [if_neg hbc] at h2
            have hlt : a < c := lt_trans (of_decide_eq_true h1) (of_decide_eq_true h2)
            simp only [if_neg (ne_of_lt hlt)]
            exact decide_eq_true hlt

theorem chars_le_antisymm :
    ∀ as bs, chars_le as bs = true → chars_le bs as = true → as = bs := by
  intro as
  induction as with
  | nil =>
    intro bs h1 h2
    cases bs with
    | nil => rfl
    | cons b bs => simp [chars_le] at h2
  | cons a as ih =>
    intro bs h1 h2
    cases bs with
    | nil => simp [chars_le] at h1
    | cons b bs =>
      by_cases hab : a = b
      · subst hab
        simp only [chars_le, if_pos rfl] at h1 h2
        rw [ih bs h1 h2]
      · simp only [chars_le, if_neg hab, if_neg (Ne.symm hab)] at h1 h2
        exact absurd (lt_trans (of_decide_eq_true h1) (of_decide_eq_true h2)) (lt_irrefl a)

instance : IsRefl String str_rle := ⟨fun a => chars_le_refl a.toList⟩

instance : IsTotal String str_rle := ⟨fun a b => chars_le_total a.toList b.toList⟩

instance : IsTrans String str_rle :=
  ⟨fun a b c => chars_le_trans a.toList b.toList c.toList⟩

instance : IsAntisymm String str_rle :=
  ⟨fun _ _ h1 h2 => String.toList_inj.mp (chars_le_antisymm _ _ h1 h2)⟩

theorem sort_strings_sorted (l : List String) : (sort_strings l).Sorted str_rle :=
  List.sorted_insertionSort str_rle l

theorem sort_strings_perm (l : List String) : List.Perm (sort_strings l) l :=
  List.perm_insertionSort str_rle l

theorem btree_set_strings_sorted (l : List String) :
    (btree_set_strings l).Sorted str_rle :=
  List.Pairwise.sublist (List.dedup_sublist _) (sort_strings_sorted l)

theorem btree_set_strings_nodup (l : List String) : (btree_set_strings l).Nodup :=
  List.nodup_dedup _

theorem mem_btree_set_strings {a : String} {l : List String} :
    a ∈ btree_set_strings l ↔ a ∈ l := by
  unfold btree_set_strings
  rw [List.mem_dedup]
  exact (sort_strings_perm l).mem_iff

/-! ## Positions in sorted duplicate-free lists -/

theorem indexOf_sorted_eq_count (l : List String) (hs : l.Sorted str_rle) (hn : l.Nodup)
    (d : String) (hd : d ∈ l) :
    l.indexOf? d = some ((l.filter fun e => decide (str_slt e d)).length) := by
  induction l with
  | nil => cases hd
  | cons a tl ih =>
    rw [List.indexOf?_cons]
    by_cases had : a = d
    · subst had
      rw [if_pos (by simp)]
      have hz : ((a :: tl).filter fun e => decide (str_slt e a)).length = 0 := by
        rw [List.length_eq_zero, List.filter_eq_nil_iff]
        intro e he
        simp only [decide_eq_true_eq]
        rintro ⟨hle, hne⟩
        rcases List.mem_cons.mp he with rfl | he'
        · exact hne rfl
        · exact hne (antisymm hle ((List.rel_of_sorted_cons hs) e he'))
      rw [hz]
    · have hd' : d ∈ tl := (List.mem_cons.mp hd).resolve_left (fun h => had h.symm)
      rw [if_neg (by simp [had]), ih hs.of_cons hn.of_cons hd']
      have hp : str_slt a d := ⟨(List.rel_of_sorted_cons hs) d hd', had⟩
      simp [List.filter_cons, hp]

theorem position_in_sorted_union_eq (E N : List String) (d : String)
    (hE : E.Nodup) (hN : N.Nodup) (hdisj : ∀ e ∈ N, e ∉ E) (hd : d ∈ N) :
    (sort_strings (E ++ N)).indexOf? d = some (position_in_sorted_union E N d) := by
  have hperm := sort_strings_perm (E ++ N)
  have happ : (E ++ N).Nodup :=
    List.Nodup.append hE hN (fun a haE haN => hdisj a haN haE)
  have hnodup : (sort_strings (E ++ N)).Nodup := hperm.nodup_iff.mpr happ
  have hmem : d ∈ sort_strings (E ++ N) :=
    hperm.mem_iff.mpr (List.mem_append_right E hd)
  rw [indexOf_sorted_eq_count _ (sort_strings_sorted _) hnodup d hmem]
  congr 1
  unfold position_in_sorted_union
  exact (hperm.filter _).length_eq

/-- C8: for existing dates E and new dates N disjoint from E (both
duplicate-free), the affected-time-chunk set computed by
get_affected_time_chunks is exactly the set of p(d) / 365 over d in N,
where p(d) is the position of d in the sorted union of E and N - no chunk
index outside this set, and every index in it. -/
theorem affected_time_chunks_exact (E N : List String)
    (hE : E.Nodup) (hN : N.Nodup) (hdisj : ∀ e ∈ N, e ∉ E) (c : Nat) :
    c ∈ get_affected_time_chunks E N ↔
      ∃ d ∈ N, position_in_sorted_union E N d / 365 = c := by
  unfold get_affected_time_chunks sort_nats
  rw [List.mem_dedup, (List.perm_insertionSort _ _).mem_iff, List.mem_filterMap]
  constructor
  · rintro ⟨d, hdN, hf⟩
    rw [position_in_sorted_union_eq E N d hE hN hdisj hdN] at hf
    simp only [Option.map_some'] at hf
    exact ⟨d, hdN, Option.some.inj hf⟩
  · rintro ⟨d, hdN, hc⟩
    refine ⟨d, hdN, ?_⟩
    rw [position_in_sorted_union_eq E N d hE hN hdisj hdN]
    simp only [Option.map_some']
    exact congrArg some hc

theorem affected_time_chunks_exact_witness :
    (["20230101"] : List String).Nodup ∧ (["20230801"] : List String).Nodup ∧
    (∀ e ∈ (["20230801"] : List String), e ∉ (["20230101"] : List String)) ∧
    (0 ∈ get_affected_time_chunks ["20230101"] ["20230801"] ↔
      ∃ d ∈ (["20230801"] : List String),
        position_in_sorted_union ["20230101"] ["20230801"] d / 365 = 0) :=
  ⟨by decide, by decide, by decide,
    affected_time_chunks_exact ["20230101"] ["20230801"] (by decide) (by decide) (by decide) 0⟩

/-! ## Frame lemmas for the chunk-merge loop -/

theorem process_cog_chunks_cons (put_ok : Nat × Nat × Nat → Bool) (c : Cog) (t : Nat)
    (p : Nat × Nat) (rest : List (Nat × Nat)) (chunks : Chunks) (n : Nat) :
    process_cog_chunks put_ok c t (p :: rest) chunks n =
      if window_has_data c p.1 p.2 then
        (if put_ok (t / 365, p.1, p.2) then
          process_cog_chunks put_ok c t rest
            (store_put chunks (t / 365, p.1, p.2)
              (merge_chunk (staged_chunk c t p.1 p.2)
                (retrieve_chunk chunks (t / 365, p.1, p.2)))) (n + 1)
        else (chunks, none))
      else process_cog_chunks put_ok c t rest chunks n := rfl

theorem staged_chunk_eq_zero_of_ne_slab (c : Cog) (t cy cx i : Nat)
    (h : i / 65536 ≠ t % 365) : staged_chunk c t cy cx i = 0 := by
  unfold staged_chunk
  rw [if_neg]
  rintro ⟨h1, -, -⟩
  exact h h1

theorem slice_pos_div (i y x : Nat) :
    ((i % 365) * 65536 + (y % 256) * 256 + x % 256) / 65536 = i % 365 := by
  have hy : y % 256 < 256 := Nat.mod_lt _ (by norm_num)
  have hx : x % 256 < 256 := Nat.mod_lt _ (by norm_num)
  have hr : (y % 256) * 256 + x % 256 < 65536 := by omega
  rw [Nat.add_assoc, Nat.mul_comm, Nat.mul_add_div (by norm_num)]
  rw [Nat.div_eq_of_lt hr, Nat.add_zero]

theorem store_put_same (chunks : Chunks) (key : Nat × Nat × Nat) (buf : Nat → Int) :
    store_put chunks key buf key = some buf := by
  unfold store_put
  rw [if_pos rfl]

theorem store_put_other (chunks : Chunks) (key : Nat × Nat × Nat) (buf : Nat → Int)
    (k : Nat × Nat × Nat) (h : k ≠ key) : store_put chunks key buf k = chunks k := by
  unfold store_put
  rw [if_neg h]

theorem array_get_eq (chunks : Chunks) (i y x : Nat) :
    array_get chunks i y x =
      retrieve_buf (chunks (i / 365, y / 256, x / 256))
        ((i % 365) * 65536 + (y % 256) * 256 + x % 256) := rfl

theorem merge_chunk_apply (staged existing : Nat → Int) (i : Nat) :
    merge_chunk staged existing i = if staged i = 0 then existing i else staged i := rfl

theorem array_get_store_merge (chunks : Chunks) (c : Cog) (t' cy cx i y x : Nat)
    (hne : t' ≠ i) :
    array_get (store_put chunks (t' / 365, cy, cx)
      (merge_chunk (staged_chunk c t' cy cx)
        (retrieve_chunk chunks (t' / 365, cy, cx)))) i y x = array_get chunks i y x := by
  rw [array_get_eq, array_get_eq]
  by_cases hkey : ((i / 365, y / 256, x / 256) : Nat × Nat × Nat) = (t' / 365, cy, cx)
  · rw [hkey, store_put_same]
    have hdivs : i / 365 = t' / 365 := congrArg Prod.fst hkey
    have hmods : i % 365 ≠ t' % 365 := by
      intro hmod
      exact hne (by omega)
    have hz : staged_chunk c t' cy cx ((i % 365) * 65536 + (y % 256) * 256 + x % 256) = 0 := by
      apply staged_chunk_eq_zero_of_ne_slab
      rw [slice_pos_div]
      exact fun h => hmods (h.symm ▸ rfl)
    show merge_chunk _ _ _ = _
    rw [merge_chunk_apply, hz, if_pos rfl]
    rfl
  · rw [store_put_other _ _ _ _ hkey]

theorem process_cog_chunks_preserves_other_slices (put_ok : Nat × Nat × Nat → Bool) (c : Cog)
    (t' : Nat) (ps : List (Nat × Nat)) (chunks : Chunks) (n i y x : Nat) (hne : t' ≠ i) :
    array_get (process_cog_chunks put_ok c t' ps chunks n).1 i y x = array_get chunks i y x := by
  induction ps generalizing chunks n with
  | nil => rfl
  | cons p rest ih =>
    rw [process_cog_chunks_cons]
    by_cases hdata : window_has_data c p.1 p.2
    · rw [if_pos hdata]
      by_cases hput : put_ok (t' / 365, p.1, p.2) = true
      · rw [if_pos hput, ih, array_get_store_merge _ _ _ _ _ _ _ _ hne]
      · rw [if_neg hput]
    · rw [if_neg hdata]
      exact ih chunks n

theorem zb_step_chunks (put_ok : Nat × Nat × Nat → Bool) (acc : Chunks × Nat × Nat)
    (f : Cog × Nat) :
    (zb_step put_ok acc f).1 = (process_single_cog put_ok acc.1 f.1 f.2).1 := by
  rcases h : process_single_cog put_ok acc.1 f.1 f.2 with ⟨ch, _ | cnt⟩ <;> simp [zb_step, h]

theorem zb_fold_preserves (put_ok : Nat × Nat × Nat → Bool) (files : List (Cog × Nat))
    (acc : Chunks × Nat × Nat) (i y x : Nat) (hf : ∀ f ∈ files, f.2 ≠ i) :
    array_get (files.foldl (zb_step put_ok) acc).1 i y x = array_get acc.1 i y x := by
  induction files generalizing acc with
  | nil => rfl
  | cons f rest ih =>
    rw [List.foldl_cons, ih _ (fun g hg => hf g (List.mem_cons_of_mem f hg))]
    rw [zb_step_chunks]
    show array_get (process_cog_chunks put_ok f.1 f.2 (chunk_pairs f.1.height f.1.width) acc.1 0).1 i y x = _
    exact process_cog_chunks_preserves_other_slices _ _ _ _ _ _ _ _ _
      (hf f (List.mem_cons_self f rest))

theorem zb_run_preserves (put_ok : Nat × Nat × Nat → Bool) (chunks : Chunks)
    (files : List (Cog × Nat)) (i y x : Nat) (hf : ∀ f ∈ files, f.2 ≠ i) :
    array_get (zb_run put_ok chunks files).1 i y x = array_get chunks i y x :=
  zb_fold_preserves put_ok files (chunks, 0, 0) i y x hf

theorem zb_all_dates_nodup (cog_dir : List (String × Cog)) : (zb_all_dates cog_dir).Nodup :=
  btree_set_strings_nodup _

theorem zb_new_dates_nodup (b : ZarrBuilder) (cog_dir : List (String × Cog)) (append : Bool) :
    (zb_new_dates b cog_dir append).Nodup := by
  unfold zb_new_dates
  cases append
  · exact zb_all_dates_nodup cog_dir
  · exact List.Nodup.filter _ (zb_all_dates_nodup cog_dir)

theorem zb_new_dates_append_not_mem (b : ZarrBuilder) (cog_dir : List (String × Cog)) :
    ∀ d ∈ zb_new_dates b cog_dir true, d ∉ b.dates := by
  intro d hd
  unfold zb_new_dates at hd
  rw [if_pos rfl] at hd
  simp only [List.mem_filter, Bool.not_eq_true'] at hd
  simpa using hd.2

theorem zb_sorted_files_index_ge (b : ZarrBuilder) (cog_dir : List (String × Cog))
    (hnodup : b.dates.Nodup)
    (horder : ∀ f ∈ cog_dir, ∀ d, extract_date_from_cog_filename f.1 = some d →
        d ∉ b.dates → ∀ e ∈ b.dates, str_slt e d) :
    ∀ f ∈ zb_sorted_files b cog_dir true, b.dates.length ≤ f.2 := by
  intro f hf
  unfold zb_sorted_files at hf
  rw [(List.perm_insertionSort _ _).mem_iff, List.mem_filterMap] at hf
  obtain ⟨a, ha, hmatch⟩ := hf
  cases hex : extract_date_from_cog_filename a.1 with
  | none =>
    rw [hex] at hmatch
    exact absurd hmatch (by exact fun h => Option.noConfusion h)
  | some date =>
    rw [hex] at hmatch
    replace hmatch :
        (if date ∈ zb_new_dates b cog_dir true then
          ((zb_combined b cog_dir true).indexOf? date).map (fun idx => (a.2, idx))
        else none) = some f := hmatch
    by_cases hmem : date ∈ zb_new_dates b cog_dir true
    · rw [if_pos hmem] at hmatch
      have hcomb : zb_combined b cog_dir true =
          sort_strings (b.dates ++ zb_new_dates b cog_dir true) := by
        unfold zb_combined
        rw [if_pos rfl]
      rw [hcomb, position_in_sorted_union_eq b.dates (zb_new_dates b cog_dir true) date hnodup
        (zb_new_dates_nodup _ _ _) (zb_new_dates_append_not_mem b cog_dir) hmem] at hmatch
      simp only [Option.map_some'] at hmatch
      have hsnd := congrArg Prod.snd (Option.some.inj hmatch)
      rw [← hsnd]
      show b.dates.length ≤ position_in_sorted_union b.dates (zb_new_dates b cog_dir true) date
      unfold position_in_sorted_union
      rw [List.filter_append, List.length_append]
      have hall : b.dates.filter (fun e => decide (str_slt e date)) = b.dates := by
        rw [List.filter_eq_self]
        intro e he
        simp only [decide_eq_true_eq]
        exact horder a (List.mem_of_mem_filter ha) date hex
          (zb_new_dates_append_not_mem b cog_dir date hmem) e he
      rw [hall]
      exact Nat.le_add_right _ _
    · rw [if_neg hmem] at hmatch
      exact absurd hmatch (by exact fun h => Option.noConfusion h)

theorem zb_alloc_chunks (b : ZarrBuilder) (append : Bool) (len : Nat) (fs : FsStore)
    (h : zb_alloc b append len = some fs) : fs.chunks = b.store.chunks := by
  unfold zb_alloc at h
  by_cases hc : (!append || b.dates.isEmpty) = true
  · rw [if_pos hc] at h
    cases h
    rfl
  · rw [if_neg hc] at h
    cases hshape : b.store.array_shape with
    | none => rw [hshape] at h; cases h
    | some shp => rw [hshape] at h; cases h; rfl

theorem zb_alloc_dates_json (b : ZarrBuilder) (append : Bool) (len : Nat) (fs : FsStore)
    (h : zb_alloc b append len = some fs) : fs.dates_json = b.store.dates_json := by
  unfold zb_alloc at h
  by_cases hc : (!append || b.dates.isEmpty) = true
  · rw [if_pos hc] at h
    cases h
    rfl
  · rw [if_neg hc] at h
    cases hshape : b.store.array_shape with
    | none => rw [hshape] at h; cases h
    | some shp => rw [hshape] at h; cases h; rfl

/-- C3 (amended): the claim as stated fails, because append mode never
checks the ordering precondition (see the counterexample and C1); it
holds under the spec-mandated precondition that every new date sorts
strictly after every existing date. Under that hypothesis, for every
pre-append axis position i (an existing date), the time slice of the
array at i is unchanged by the call, at every (y, x) - whether the call
returned, failed, or skipped files. -/
theorem append_preserves_existing_slices (put_ok : Nat × Nat × Nat → Bool) (b : ZarrBuilder)
    (cog_dir : List (String × Cog))
    (hnodup : b.dates.Nodup)
    (horder : ∀ f ∈ cog_dir, ∀ d, extract_date_from_cog_filename f.1 = some d →
        d ∉ b.dates → ∀ e ∈ b.dates, str_slt e d)
    (i : Nat) (hi : i < b.dates.length) (y x : Nat) :
    array_get (result_builder (process_cogs put_ok b cog_dir true) b).store.chunks i y x =
      array_get b.store.chunks i y x := by
  unfold process_cogs
  by_cases hempty : (zb_new_dates b cog_dir true).isEmpty = true
  · rw [if_pos hempty]
    rfl
  · rw [if_neg hempty]
    cases halloc : zb_alloc b true (zb_combined b cog_dir true).length with
    | none => rfl
    | some fs =>
      show array_get (zb_run put_ok fs.chunks (zb_sorted_files b cog_dir true)).1 i y x = _
      rw [zb_alloc_chunks b true _ fs halloc]
      apply zb_run_preserves
      intro f hf
      have hge := zb_sorted_files_index_ge b cog_dir hnodup horder f hf
      omega

/-- C3 (counterexample): as stated, the claim is false. With the axis
holding 20231202 (whose chunk (0,0,0) carries 9 at time offset 0) an
append of the earlier date 20231201 succeeds, assigns the new file axis
position 0 = the pre-append position of 20231202, and its merge write
overwrites the slice: the array value at (0,0,0) changes from 9 to 5. -/
theorem append_earlier_date_overwrites_slice :
    array_get b_dec02.store.chunks 0 0 0 = 9 ∧
    (process_cogs (fun _ => true) b_dec02 dir_dec01 true).isOk = true ∧
    array_get (result_builder (process_cogs (fun _ => true) b_dec02 dir_dec01 true)
      b_dec02).store.chunks 0 0 0 = 5 :=
  ⟨by decide, by decide, by decide⟩

theorem append_preserves_existing_slices_witness :
    b_dec01.dates.Nodup ∧
    (∀ f ∈ dir_dec02, ∀ d, extract_date_from_cog_filename f.1 = some d →
        d ∉ b_dec01.dates → ∀ e ∈ b_dec01.dates, str_slt e d) ∧
    0 < b_dec01.dates.length ∧
    array_get (result_builder (process_cogs (fun _ => true) b_dec01 dir_dec02 true)
      b_dec01).store.chunks 0 0 0 = array_get b_dec01.store.chunks 0 0 0 := by
  have horder : ∀ f ∈ dir_dec02, ∀ d, extract_date_from_cog_filename f.1 = some d →
      d ∉ b_dec01.dates → ∀ e ∈ b_dec01.dates, str_slt e d := by
    intro f hf d hex hd e he
    have hf2 : f = ("snodas_snow_depth_20231202.tif", tiny_cog 7) := List.mem_singleton.mp hf
    rw [hf2] at hex
    have hval : extract_date_from_cog_filename "snodas_snow_depth_20231202.tif" =
        some "20231202" := by decide
    rw [hval] at hex
    cases Option.some.inj hex
    have he2 : e = "20231201" := List.mem_singleton.mp he
    rw [he2]
    decide
  exact ⟨by decide, horder, by decide,
    append_preserves_existing_slices (fun _ => true) b_dec01 dir_dec02 (by decide) horder 0
      (by decide) 0 0⟩

/-- C9: the claim fails on the code. The modeled payload filename
us_ssmv01036SlL01T0024TTNATS2024010105DP001.dat.gz contains a single
underscore, so parse_filename rejects it at the parts.len() < 4 guard
(snodas.rs line 148) and returns None - even though every later stage
(product code 1036 = SnowDepth, date 2024-01-01, the Sl model marker)
would succeed. The second conjunct shows the parser is modelled
faithfully: the observed (two-underscore) filename form parses exactly
as snodas.rs's own unit test expects. -/
theorem model_payload_filename_rejected :
    SnodasFile.parse_filename "us_ssmv01036SlL01T0024TTNATS2024010105DP001.dat.gz" = none ∧
    SnodasFile.parse_filename "us_ssmv11034tS__T0001TTNATS2023120105HP001.dat.gz" =
      some { date := (2023, 12, 1), product_id := .Swe,
             filename := "us_ssmv11034tS__T0001TTNATS2023120105HP001.dat.gz",
             is_model := false, hour := 5 } :=
  ⟨by decide, by decide⟩

/-- C1: the claim fails on the code. process_cogs has no precondition
check at all: appending 20231130 onto an axis holding 20231201 returns
Ok (not a PreconditionViolation - no such error exists in
zarr_builder.rs), inserts the new date before the existing one, and
rewrites both the in-memory axis and dates.json to the reordered list,
so the store is modified rather than left untouched. -/
theorem append_out_of_order_not_rejected :
    (process_cogs (fun _ => true) b_dec01 dir_nov30 true).isOk = true ∧
    (result_builder (process_cogs (fun _ => true) b_dec01 dir_nov30 true) b_dec01).dates =
      ["20231130", "20231201"] ∧
    (result_builder (process_cogs (fun _ => true) b_dec01 dir_nov30 true)
      b_dec01).store.dates_json = some ["20231130", "20231201"] :=
  ⟨by decide, by decide, by decide⟩

/-- C2 (counterexample): as stated, the claim is false. A fresh
non-append run of one COG whose only chunk store fails (put_ok always
false) still returns Ok - the Err of process_single_cog is only logged by
the match in lines 236-244 - and dates.json is still written with the
full combined axis. -/
theorem chunk_store_failure_still_ok :
    (process_cogs (fun _ => false) b_empty dir_dec01 false).isOk = true ∧
    (result_builder (process_cogs (fun _ => false) b_empty dir_dec01 false) b_empty).dates =
      ["20231201"] ∧
    (result_builder (process_cogs (fun _ => false) b_empty dir_dec01 false)
      b_empty).store.dates_json = some ["20231201"] :=
  ⟨by decide, by decide, by decide⟩

/-- C2 (amended): a chunk-store failure does not fail the batch. Whatever
chunk writes succeed or fail, process_cogs returns the same Ok/Err
outcome, ends with the same date axis, and persists the same dates.json
as the all-writes-succeed run; failures only lose that COG's chunk
content and its success count. -/
theorem chunk_store_failure_batch_continues (put_ok : Nat × Nat × Nat → Bool)
    (b : ZarrBuilder) (cog_dir : List (String × Cog)) (append : Bool) :
    (process_cogs put_ok b cog_dir append).isOk =
      (process_cogs (fun _ => true) b cog_dir append).isOk ∧
    (result_builder (process_cogs put_ok b cog_dir append) b).dates =
      (result_builder (process_cogs (fun _ => true) b cog_dir append) b).dates ∧
    (result_builder (process_cogs put_ok b cog_dir append) b).store.dates_json =
      (result_builder (process_cogs (fun _ => true) b cog_dir append) b).store.dates_json := by
  unfold process_cogs
  by_cases hempty : (zb_new_dates b cog_dir append).isEmpty = true
  · rw [if_pos hempty, if_pos hempty]
    exact ⟨rfl, rfl, rfl⟩
  · rw [if_neg hempty, if_neg hempty]
    cases halloc : zb_alloc b append (zb_combined b cog_dir append).length with
    | none => exact ⟨rfl, rfl, rfl⟩
    | some fs => exact ⟨rfl, rfl, rfl⟩

/-- C5: the claim fails on the code. The rayon tasks of one time-chunk
group run the retrieve/store pair of lines 321-329 with no serialization:
in the interleaving machine, two tasks of the same group (axis positions
0 and 1, same spatial chunk), each staging a positive pixel, both
retrieve before either stores (schedule task1-read, task2-read,
task1-store, task2-store) and task 1's time slice is lost: the final
chunk holds 0 where task 1 staged 5. Either serialized order keeps it. -/
theorem parallel_rmw_loses_time_slice :
    staged_chunk (tiny_cog 5) 0 0 0 0 = 5 ∧
    retrieve_buf (rmw_run [true, false, true, false]
      (none, rmw_task_init (staged_chunk (tiny_cog 5) 0 0 0),
       rmw_task_init (staged_chunk (tiny_cog 7) 1 0 0))).1 0 = 0 ∧
    retrieve_buf (rmw_run [true, true, false, false]
      (none, rmw_task_init (staged_chunk (tiny_cog 5) 0 0 0),
       rmw_task_init (staged_chunk (tiny_cog 7) 1 0 0))).1 0 = 5 ∧
    retrieve_buf (rmw_run [false, false, true, true]
      (none, rmw_task_init (staged_chunk (tiny_cog 5) 0 0 0),
       rmw_task_init (staged_chunk (tiny_cog 7) 1 0 0))).1 0 = 5 :=
  ⟨by decide, by decide, by decide, by decide⟩

/-- C4: the merge step of the per-COG chunk write (lines 311-330). For a
chunk pair with data and a succeeding store, the loop stores exactly
merge_chunk staged existing; when a chunk object exists on disk, the
stored value at every position is the staged (normalized) value if that
staged value is non-zero and the pre-existing value otherwise; when no
chunk object exists, the staged buffer is stored as-is (zarrs decodes the
missing chunk to fill-value zeros, and merging with zeros is the
identity). -/
theorem chunk_merge_nonzero_wins (put_ok : Nat × Nat × Nat → Bool) (chunks : Chunks) (c : Cog)
    (t cy cx : Nat) (e : Nat → Int)
    (hdata : window_has_data c cy cx = true)
    (hput : put_ok (t / 365, cy, cx) = true) :
    (process_cog_chunks put_ok c t [(cy, cx)] chunks 0 =
      (store_put chunks (t / 365, cy, cx)
        (merge_chunk (staged_chunk c t cy cx) (retrieve_chunk chunks (t / 365, cy, cx))),
       some 1)) ∧
    (chunks (t / 365, cy, cx) = some e →
      ∀ i, merge_chunk (staged_chunk c t cy cx) (retrieve_chunk chunks (t / 365, cy, cx)) i =
        if staged_chunk c t cy cx i ≠ 0 then staged_chunk c t cy cx i else e i) ∧
    (chunks (t / 365, cy, cx) = none →
      merge_chunk (staged_chunk c t cy cx) (retrieve_chunk chunks (t / 365, cy, cx)) =
        staged_chunk c t cy cx) := by
  refine ⟨?_, ?_, ?_⟩
  · rw [process_cog_chunks_cons, if_pos hdata, if_pos hput]
    rfl
  · intro hsome i
    rw [merge_chunk_apply]
    unfold retrieve_chunk
    rw [hsome]
    by_cases hz : staged_chunk c t cy cx i = 0
    · rw [if_pos hz, if_neg (by simp [hz])]
      rfl
    · rw [if_neg hz, if_pos hz]
  · intro hnone
    funext i
    rw [merge_chunk_apply]
    unfold retrieve_chunk
    rw [hnone]
    by_cases hz : staged_chunk c t cy cx i = 0
    · rw [if_pos hz, hz]
      rfl
    · rw [if_neg hz]

theorem chunk_merge_nonzero_wins_witness :
    window_has_data (tiny_cog 5) 0 0 = true ∧
    ((process_cog_chunks (fun _ => true) (tiny_cog 5) 0 [(0, 0)] chunks_c3 0 =
      (store_put chunks_c3 (0 / 365, 0, 0)
        (merge_chunk (staged_chunk (tiny_cog 5) 0 0 0)
          (retrieve_chunk chunks_c3 (0 / 365, 0, 0))),
       some 1)) ∧
    (chunks_c3 (0 / 365, 0, 0) = some (fun _ => 3) →
      ∀ i, merge_chunk (staged_chunk (tiny_cog 5) 0 0 0)
          (retrieve_chunk chunks_c3 (0 / 365, 0, 0)) i =
        if staged_chunk (tiny_cog 5) 0 0 0 i ≠ 0 then staged_chunk (tiny_cog 5) 0 0 0 i
        else 3) ∧
    (chunks_c3 (0 / 365, 0, 0) = none →
      merge_chunk (staged_chunk (tiny_cog 5) 0 0 0)
          (retrieve_chunk chunks_c3 (0 / 365, 0, 0)) =
        staged_chunk (tiny_cog 5) 0 0 0)) :=
  ⟨by decide,
    chunk_merge_nonzero_wins (fun _ => true) chunks_c3 (tiny_cog 5) 0 0 0 (fun _ => 3)
      (by decide) rfl⟩

/-- C6: after any successful process_cogs call (append or not), starting
from a well-formed builder (strictly ascending unique axis, dates.json in
sync), the resulting DateAxis is sorted with no duplicates - it equals
the sorted deduplicated set of its entries - and the dates.json persisted
on disk equals the in-memory DateAxis. -/
theorem process_cogs_axis_sorted_unique (put_ok : Nat × Nat × Nat → Bool) (b : ZarrBuilder)
    (cog_dir : List (String × Cog)) (append : Bool)
    (hsorted : b.dates.Sorted str_rle) (hnodup : b.dates.Nodup)
    (hdisk : b.store.dates_json = some b.dates)
    (hok : (process_cogs put_ok b cog_dir append).isOk = true) :
    (result_builder (process_cogs put_ok b cog_dir append) b).dates.Sorted str_rle ∧
    (result_builder (process_cogs put_ok b cog_dir append) b).dates.Nodup ∧
    (result_builder (process_cogs put_ok b cog_dir append) b).store.dates_json =
      some (result_builder (process_cogs put_ok b cog_dir append) b).dates := by
  unfold process_cogs
  by_cases hempty : (zb_new_dates b cog_dir append).isEmpty = true
  · rw [if_pos hempty]
    exact ⟨hsorted, hnodup, hdisk⟩
  · rw [if_neg hempty]
    unfold process_cogs at hok
    rw [if_neg hempty] at hok
    cases halloc : zb_alloc b append (zb_combined b cog_dir append).length with
    | none =>
      rw [halloc] at hok
      exact Bool.noConfusion hok
    | some fs =>
      refine ⟨?_, ?_, rfl⟩
      · show (zb_combined b cog_dir append).Sorted str_rle
        exact sort_strings_sorted _
      · show (zb_combined b cog_dir append).Nodup
        unfold zb_combined
        apply (sort_strings_perm _).nodup_iff.mpr
        cases append
        · rw [if_neg (by decide)]
          exact zb_new_dates_nodup b cog_dir false
        · rw [if_pos rfl]
          exact List.Nodup.append hnodup (zb_new_dates_nodup b cog_dir true)
            (fun a ha hnew => zb_new_dates_append_not_mem b cog_dir a hnew ha)

theorem process_cogs_axis_sorted_unique_witness :
    b_dec01.dates.Sorted str_rle ∧ b_dec01.dates.Nodup ∧
    b_dec01.store.dates_json = some b_dec01.dates ∧
    (process_cogs (fun _ => true) b_dec01 dir_dec02 true).isOk = true ∧
    ((result_builder (process_cogs (fun _ => true) b_dec01 dir_dec02 true)
        b_dec01).dates.Sorted str_rle ∧
      (result_builder (process_cogs (fun _ => true) b_dec01 dir_dec02 true)
        b_dec01).dates.Nodup ∧
      (result_builder (process_cogs (fun _ => true) b_dec01 dir_dec02 true)
        b_dec01).store.dates_json =
        some (result_builder (process_cogs (fun _ => true) b_dec01 dir_dec02 true)
          b_dec01).dates) :=
  ⟨by decide, by decide, by decide, by decide,
    process_cogs_axis_sorted_unique (fun _ => true) b_dec01 dir_dec02 true (by decide)
      (by decide) (by decide) (by decide)⟩

/-! ## The single-positive-pixel COG -/

theorem normalize_pos_iff (v : Int) : 0 < normalize_px v ↔ 0 < v := by
  unfold normalize_px NODATA_VALUE
  split_ifs with h
  · omega
  · exact Iff.rfl

theorem single_pixel_cog_height (y0 x0 : Nat) (v : Int) :
    (single_pixel_cog y0 x0 v).height = MASKED_ROWS := rfl

theorem single_pixel_cog_width (y0 x0 : Nat) (v : Int) :
    (single_pixel_cog y0 x0 v).width = MASKED_COLS := rfl

theorem single_pixel_cog_pix (y0 x0 : Nat) (v : Int) (r c : Nat) :
    (single_pixel_cog y0 x0 v).pix r c = if r = y0 ∧ c = x0 then v else NODATA_VALUE := rfl

theorem window_has_data_single_pixel (y0 x0 : Nat) (v : Int) (hv : 0 < v)
    (hy : y0 < MASKED_ROWS) (hx : x0 < MASKED_COLS) (cy cx : Nat) :
    window_has_data (single_pixel_cog y0 x0 v) cy cx = true ↔
      (cy = y0 / 256 ∧ cx = x0 / 256) := by
  have hrows : MASKED_ROWS = 3351 := rfl
  have hcols : MASKED_COLS = 6935 := rfl
  unfold window_has_data
  rw [single_pixel_cog_height, single_pixel_cog_width]
  simp only [List.any_eq_true, List.mem_range, decide_eq_true_eq]
  constructor
  · rintro ⟨row, hrow, col, hcol, hpos⟩
    rw [normalize_pos_iff, single_pixel_cog_pix] at hpos
    have hrow256 : row < 256 := lt_of_lt_of_le hrow (min_le_left _ _)
    have hcol256 : col < 256 := lt_of_lt_of_le hcol (min_le_left _ _)
    by_cases hc : (cy * 256 + row = y0 ∧ cx * 256 + col = x0)
    · obtain ⟨h1, h2⟩ := hc
      constructor <;> omega
    · rw [if_neg hc] at hpos
      exact absurd hpos (by unfold NODATA_VALUE; omega)
  · rintro ⟨rfl, rfl⟩
    refine ⟨y0 % 256, ?_, x0 % 256, ?_, ?_⟩
    · unfold read_height
      rw [Nat.lt_min, hrows]
      constructor <;> omega
    · unfold read_width
      rw [Nat.lt_min, hcols]
      constructor <;> omega
    · rw [Nat.div_add_mod', Nat.div_add_mod', normalize_pos_iff, single_pixel_cog_pix,
        if_pos ⟨rfl, rfl⟩]
      exact hv

theorem slice_pos_mod (i y x : Nat) :
    ((i % 365) * 65536 + (y % 256) * 256 + x % 256) % 65536 = (y % 256) * 256 + x % 256 := by
  have hy : y % 256 < 256 := Nat.mod_lt _ (by norm_num)
  have hx : x % 256 < 256 := Nat.mod_lt _ (by norm_num)
  have hr : (y % 256) * 256 + x % 256 < 65536 := by omega
  rw [Nat.add_assoc, Nat.mul_comm, Nat.mul_add_mod]
  exact Nat.mod_eq_of_lt hr

theorem staged_single_pixel (y0 x0 : Nat) (v : Int) (hv : 0 < v)
    (hy : y0 < MASKED_ROWS) (hx : x0 < MASKED_COLS) (t : Nat) :
    staged_chunk (single_pixel_cog y0 x0 v) t (y0 / 256) (x0 / 256) =
      fun i => if i = (t % 365) * 65536 + (y0 % 256) * 256 + x0 % 256 then v else 0 := by
  have hrows : MASKED_ROWS = 3351 := rfl
  have hcols : MASKED_COLS = 6935 := rfl
  rw [hrows] at hy
  rw [hcols] at hx
  funext i
  by_cases hi : i = (t % 365) * 65536 + (y0 % 256) * 256 + x0 % 256
  · subst hi
    rw [if_pos rfl]
    unfold staged_chunk
    rw [slice_pos_div t y0 x0, slice_pos_mod t y0 x0]
    have hrow : ((y0 % 256) * 256 + x0 % 256) / 256 = y0 % 256 := by omega
    have hcol : ((y0 % 256) * 256 + x0 % 256) % 256 = x0 % 256 := by omega
    rw [hrow, hcol]
    have hcnd1 : y0 % 256 < read_height (single_pixel_cog y0 x0 v).height (y0 / 256) := by
      rw [single_pixel_cog_height, hrows]
      unfold read_height
      rw [Nat.lt_min]
      constructor <;> omega
    have hcnd2 : x0 % 256 < read_width (single_pixel_cog y0 x0 v).width (x0 / 256) := by
      rw [single_pixel_cog_width, hcols]
      unfold read_width
      rw [Nat.lt_min]
      constructor <;> omega
    rw [if_pos ⟨rfl, hcnd1, hcnd2⟩]
    rw [Nat.div_add_mod', Nat.div_add_mod', single_pixel_cog_pix, if_pos ⟨rfl, rfl⟩]
    unfold normalize_px NODATA_VALUE
    rw [if_neg (by omega)]
  · rw [if_neg hi]
    unfold staged_chunk
    split_ifs with hcond
    · obtain ⟨h1, h2, h3⟩ := hcond
      rw [single_pixel_cog_pix]
      by_cases hcoord : (y0 / 256 * 256 + (i % 65536) / 256 = y0 ∧
          x0 / 256 * 256 + (i % 65536) % 256 = x0)
      · exfalso
        apply hi
        obtain ⟨hcy, hcx⟩ := hcoord
        omega
      · rw [if_neg hcoord]
        unfold normalize_px
        rw [if_pos rfl]
    · rfl

theorem process_cog_chunks_skip_all (put_ok : Nat × Nat × Nat → Bool) (c : Cog) (t : Nat)
    (ps : List (Nat × Nat)) (chunks : Chunks) (n : Nat)
    (h : ∀ p ∈ ps, window_has_data c p.1 p.2 = false) :
    process_cog_chunks put_ok c t ps chunks n = (chunks, some n) := by
  induction ps with
  | nil => rfl
  | cons p rest ih =>
    rw [process_cog_chunks_cons,
      if_neg (by rw [h p (List.mem_cons_self p rest)]; exact Bool.false_ne_true)]
    exact ih (fun q hq => h q (List.mem_cons_of_mem p hq))

theorem process_cog_chunks_single_write (put_ok : Nat × Nat × Nat → Bool) (c : Cog) (t : Nat)
    (ps : List (Nat × Nat)) (pstar : Nat × Nat)
    (hmem : pstar ∈ ps) (hnd : ps.Nodup)
    (honly : ∀ p ∈ ps, p ≠ pstar → window_has_data c p.1 p.2 = false)
    (hdata : window_has_data c pstar.1 pstar.2 = true)
    (hput : put_ok (t / 365, pstar.1, pstar.2) = true) :
    ∀ chunks n, process_cog_chunks put_ok c t ps chunks n =
      (store_put chunks (t / 365, pstar.1, pstar.2)
        (merge_chunk (staged_chunk c t pstar.1 pstar.2)
          (retrieve_chunk chunks (t / 365, pstar.1, pstar.2))), some (n + 1)) := by
  induction ps with
  | nil => cases hmem
  | cons p rest ih =>
    intro chunks n
    rcases List.mem_cons.mp hmem with rfl | hmem'
    · rw [process_cog_chunks_cons, if_pos hdata, if_pos hput]
      have hrest : ∀ q ∈ rest, window_has_data c q.1 q.2 = false := by
        intro q hq
        refine honly q (List.mem_cons_of_mem _ hq) ?_
        intro hqp
        exact (List.nodup_cons.mp hnd).1 (hqp ▸ hq)
      rw [process_cog_chunks_skip_all _ _ _ _ _ _ hrest]
    · have hp : window_has_data c p.1 p.2 = false := by
        refine honly p (List.mem_cons_self p rest) ?_
        intro hpp
        exact (List.nodup_cons.mp hnd).1 (hpp ▸ hmem')
      rw [process_cog_chunks_cons, if_neg (by rw [hp]; exact Bool.false_ne_true)]
      exact ih hmem' (List.nodup_cons.mp hnd).2
        (fun q hq hqs => honly q (List.mem_cons_of_mem p hq) hqs) chunks n

theorem chunk_pairs_nodup (h w : Nat) : (chunk_pairs h w).Nodup := by
  unfold chunk_pairs
  rw [List.nodup_flatMap]
  constructor
  · intro cy hcy
    exact (List.nodup_range _).map (fun a b hab => (Prod.mk.injEq _ _ _ _ ▸ hab).2)
  · refine (List.nodup_range _).pairwise_of_forall_ne ?_
    intro cy cy' hcy hcy' hne q hq hq'
    rw [List.mem_map] at hq hq'
    obtain ⟨cx, hcx, rfl⟩ := hq
    obtain ⟨cx', hcx', heq⟩ := hq'
    exact hne (congrArg Prod.fst heq).symm

theorem chunk_pairs_mem (h w cy cx : Nat) (hcy : cy < (h + 255) / 256)
    (hcx : cx < (w + 255) / 256) : (cy, cx) ∈ chunk_pairs h w := by
  unfold chunk_pairs
  rw [List.mem_flatMap]
  exact ⟨cy, List.mem_range.mpr hcy, List.mem_map.mpr ⟨cx, List.mem_range.mpr hcx, rfl⟩⟩

/-- C7: for the full-size COG (6935 x 3351) that is NODATA everywhere
except one strictly positive pixel v at (y0, x0), processed at axis
position t against a store with no pre-existing chunk at the target, the
chunk-merge write stores exactly one chunk - at (t/365, y0/256, x0/256) -
whose decoded content holds v at flat position
(t%365)*65536 + (y0%256)*256 + (x0%256) (time offset t%365, row y0%256,
column x0%256) and 0 everywhere else; every other chunk object is
untouched and the nonzero-chunk count is 1. -/
theorem single_pixel_cog_single_chunk (put_ok : Nat × Nat × Nat → Bool) (chunks : Chunks)
    (y0 x0 : Nat) (v : Int) (t : Nat)
    (hv : 0 < v) (hy : y0 < MASKED_ROWS) (hx : x0 < MASKED_COLS)
    (hput : put_ok (t / 365, y0 / 256, x0 / 256) = true)
    (habsent : chunks (t / 365, y0 / 256, x0 / 256) = none) :
    process_single_cog put_ok chunks (single_pixel_cog y0 x0 v) t =
      (store_put chunks (t / 365, y0 / 256, x0 / 256)
        (fun i => if i = (t % 365) * 65536 + (y0 % 256) * 256 + x0 % 256 then v else 0),
       some 1) := by
  have hrows : MASKED_ROWS = 3351 := rfl
  have hcols : MASKED_COLS = 6935 := rfl
  unfold process_single_cog
  rw [single_pixel_cog_height, single_pixel_cog_width]
  have hmem : ((y0 / 256, x0 / 256) : Nat × Nat) ∈ chunk_pairs MASKED_ROWS MASKED_COLS := by
    apply chunk_pairs_mem
    · rw [hrows] at hy ⊢
      omega
    · rw [hcols] at hx ⊢
      omega
  have honly : ∀ p ∈ chunk_pairs MASKED_ROWS MASKED_COLS, p ≠ (y0 / 256, x0 / 256) →
      window_has_data (single_pixel_cog y0 x0 v) p.1 p.2 = false := by
    intro p hp hne
    cases hW : window_has_data (single_pixel_cog y0 x0 v) p.1 p.2 with
    | false => rfl
    | true =>
      obtain ⟨h1, h2⟩ := (window_has_data_single_pixel y0 x0 v hv hy hx p.1 p.2).mp hW
      exact absurd (Prod.ext h1 h2) hne
  have hdata : window_has_data (single_pixel_cog y0 x0 v) (y0 / 256) (x0 / 256) = true :=
    (window_has_data_single_pixel y0 x0 v hv hy hx _ _).mpr ⟨rfl, rfl⟩
  rw [process_cog_chunks_single_write put_ok _ t _ (y0 / 256, x0 / 256) hmem
    (chunk_pairs_nodup _ _) honly hdata hput chunks 0]
  have hret : retrieve_chunk chunks (t / 365, y0 / 256, x0 / 256) = fun _ => 0 := by
    unfold retrieve_chunk
    rw [habsent]
    rfl
  rw [hret]
  have hmerge : merge_chunk (staged_chunk (single_pixel_cog y0 x0 v) t (y0 / 256) (x0 / 256))
      (fun _ => 0) = staged_chunk (single_pixel_cog y0 x0 v) t (y0 / 256) (x0 / 256) := by
    funext i
    rw [merge_chunk_apply]
    by_cases hz : staged_chunk (single_pixel_cog y0 x0 v) t (y0 / 256) (x0 / 256) i = 0
    · rw [if_pos hz, hz]
    · rw [if_neg hz]
  rw [hmerge, staged_single_pixel y0 x0 v hv hy hx t]

theorem single_pixel_cog_single_chunk_witness :
    (0 : Int) < 100 ∧ 1000 < MASKED_ROWS ∧ 2000 < MASKED_COLS ∧
    process_single_cog (fun _ => true) (fun _ => none) (single_pixel_cog 1000 2000 100) 0 =
      (store_put (fun _ => none) (0 / 365, 1000 / 256, 2000 / 256)
        (fun i => if i = (0 % 365) * 65536 + (1000 % 256) * 256 + 2000 % 256 then 100 else 0),
       some 1) :=
  ⟨by decide, by decide, by decide,
    single_pixel_cog_single_chunk (fun _ => true) (fun _ => none) 1000 2000 100 0 (by decide)
      (by decide) (by decide) rfl rfl⟩

/-- C10: a non-append process_cogs run over an output directory that
already carries a chunk object (here at (0,0,0), content B) does not
clear it: ZarrBuilder::new and create_array only (re)write metadata, so
the run succeeds, every chunk the run does not write survives verbatim,
the chunk it does write is the merge of the staged buffer with the
leftover content, and the leftover value B 1 - a position the staged
buffer left at 0 - appears in the freshly rebuilt array at (t,y,x) =
(0,0,1). -/
theorem nonappend_keeps_leftover_chunks (fs : FsStore) (B : Nat → Int)
    (hleft : fs.chunks (0, 0, 0) = some B) :
    (process_cogs (fun _ => true) (ZarrBuilder.new_builder fs) dir_dec01 false).isOk = true ∧
    (∀ k, k ≠ ((0, 0, 0) : Nat × Nat × Nat) →
      (result_builder (process_cogs (fun _ => true) (ZarrBuilder.new_builder fs) dir_dec01 false)
        (ZarrBuilder.new_builder fs)).store.chunks k = fs.chunks k) ∧
    (result_builder (process_cogs (fun _ => true) (ZarrBuilder.new_builder fs) dir_dec01 false)
      (ZarrBuilder.new_builder fs)).store.chunks (0, 0, 0) =
      some (merge_chunk (staged_chunk (tiny_cog 5) 0 0 0) B) ∧
    array_get (result_builder (process_cogs (fun _ => true) (ZarrBuilder.new_builder fs)
      dir_dec01 false) (ZarrBuilder.new_builder fs)).store.chunks 0 0 1 = B 1 := by
  have hchunks : (result_builder (process_cogs (fun _ => true) (ZarrBuilder.new_builder fs)
      dir_dec01 false) (ZarrBuilder.new_builder fs)).store.chunks =
      store_put fs.chunks (0, 0, 0)
        (merge_chunk (staged_chunk (tiny_cog 5) 0 0 0)
          (retrieve_chunk fs.chunks (0, 0, 0))) := rfl
  have hretr : retrieve_chunk fs.chunks (0, 0, 0) = B := by
    unfold retrieve_chunk
    rw [hleft]
    rfl
  refine ⟨rfl, ?_, ?_, ?_⟩
  · intro k hk
    rw [hchunks, store_put_other _ _ _ _ hk]
  · rw [hchunks, hretr, store_put_same]
  · show retrieve_buf ((result_builder (process_cogs (fun _ => true)
      (ZarrBuilder.new_builder fs) dir_dec01 false)
      (ZarrBuilder.new_builder fs)).store.chunks (0, 0, 0)) 1 = B 1
    rw [hchunks, hretr, store_put_same]
    show merge_chunk (staged_chunk (tiny_cog 5) 0 0 0) B 1 = B 1
    rw [merge_chunk_apply, if_pos (show staged_chunk (tiny_cog 5) 0 0 0 1 = 0 by decide)]

theorem nonappend_keeps_leftover_chunks_witness :
    fs_leftover.chunks (0, 0, 0) = some (fun _ => 7) ∧
    ((process_cogs (fun _ => true) (ZarrBuilder.new_builder fs_leftover) dir_dec01 false).isOk
        = true ∧
      (∀ k, k ≠ ((0, 0, 0) : Nat × Nat × Nat) →
        (result_builder (process_cogs (fun _ => true) (ZarrBuilder.new_builder fs_leftover)
          dir_dec01 false) (ZarrBuilder.new_builder fs_leftover)).store.chunks k =
          fs_leftover.chunks k) ∧
      (result_builder (process_cogs (fun _ => true) (ZarrBuilder.new_builder fs_leftover)
        dir_dec01 false) (ZarrBuilder.new_builder fs_leftover)).store.chunks (0, 0, 0) =
        some (merge_chunk (staged_chunk (tiny_cog 5) 0 0 0) (fun _ => 7)) ∧
      array_get (result_builder (process_cogs (fun _ => true)
        (ZarrBuilder.new_builder fs_leftover) dir_dec01 false)
        (ZarrBuilder.new_builder fs_leftover)).store.chunks 0 0 1 = 7) :=
  ⟨rfl, nonappend_keeps_leftover_chunks fs_leftover (fun _ => 7) rfl⟩
